import Mathlib

/-!
# ninefs: the translation layer between Dokan callbacks and the 9P client

A shallow embedding of `src/ninefs.c`.  C strings are lists of code units
(the content before the terminating NUL): `char *` is a list of bytes,
`LPCWSTR` a list of UTF-16 code units.  Pointers to remote references
(`Npcfid *`) are natural numbers with `0` for `NULL`.  Machine integers are
`Nat`/`Int` with the wrap-around written out.  Calls into the 9P client
library are recorded in a trace, and the library's replies are parameters.
-/

namespace Ninefs

/-! ## Header constants -/

/-- Modelled from the spec: `GENERIC_READ` of the absent header winnt.h. -/
def GENERIC_READ : Nat := 0x80000000
/-- Modelled from the spec: `GENERIC_WRITE` of the absent header winnt.h. -/
def GENERIC_WRITE : Nat := 0x40000000
/-- Modelled from the spec: `FILE_READ_DATA` of the absent header winnt.h. -/
def FILE_READ_DATA : Nat := 0x0001
/-- Modelled from the spec: `FILE_WRITE_DATA` of the absent header winnt.h. -/
def FILE_WRITE_DATA : Nat := 0x0002

/-- Modelled from the spec: `CREATE_NEW` of the absent header winbase.h. -/
def CREATE_NEW : Nat := 1
/-- Modelled from the spec: `CREATE_ALWAYS` of the absent header winbase.h. -/
def CREATE_ALWAYS : Nat := 2
/-- Modelled from the spec: `OPEN_EXISTING` of the absent header winbase.h. -/
def OPEN_EXISTING : Nat := 3
/-- Modelled from the spec: `OPEN_ALWAYS` of the absent header winbase.h. -/
def OPEN_ALWAYS : Nat := 4
/-- Modelled from the spec: `TRUNCATE_EXISTING` of the absent header winbase.h. -/
def TRUNCATE_EXISTING : Nat := 5

/-- Modelled from the spec: the read-only open mode `Oread` of the absent header npfs.h. -/
def Oread : Nat := 0x00
/-- Modelled from the spec: the write-only open mode `Owrite` of the absent header npfs.h. -/
def Owrite : Nat := 0x01
/-- Modelled from the spec: the read-and-write open mode `Ordwr` of the absent header npfs.h. -/
def Ordwr : Nat := 0x02
/-- Modelled from the spec: the truncate-on-open flag `Otrunc` of the absent header npfs.h. -/
def Otrunc : Nat := 0x10

/-- Modelled from the spec: `ENOENT` ("no such entry") of the absent header errno.h. -/
def ENOENT : Nat := 2
/-- Modelled from the spec: `ERROR_FILE_NOT_FOUND` of the absent header winerror.h. -/
def ERROR_FILE_NOT_FOUND : Nat := 2
/-- Modelled from the spec: `ERROR_NOT_ENOUGH_MEMORY` of the absent header winerror.h. -/
def ERROR_NOT_ENOUGH_MEMORY : Nat := 8
/-- Modelled from the spec: `ERROR_NOT_SAME_DEVICE` of the absent header winerror.h. -/
def ERROR_NOT_SAME_DEVICE : Nat := 17
/-- Modelled from the spec: `ERROR_INVALID_PARAMETER` of the absent header winerror.h. -/
def ERROR_INVALID_PARAMETER : Nat := 87

/-! ## Time converter (`fromFT`, `toFT`) -/

/-- The Windows `FILETIME`: a 64-bit tick count split into two `DWORD`s. -/
structure FILETIME where
  dwLowDateTime : Nat
  dwHighDateTime : Nat
  deriving DecidableEq, Repr

/-- The cast `(LONG)a` of a 32-bit value: its reading as a signed 32-bit integer. -/
def toLONG (a : Nat) : Int :=
  if a % 4294967296 < 2147483648 then ((a % 4294967296 : Nat) : Int)
  else ((a % 4294967296 : Nat) : Int) - 4294967296

/-- The cast to `LONGLONG` of a 64-bit pattern: its reading as a signed 64-bit integer. -/
def toLONGLONG (a : Int) : Int :=
  if a % 18446744073709551616 < 9223372036854775808 then a % 18446744073709551616
  else a % 18446744073709551616 - 18446744073709551616

/-- The cast `(DWORD)x` / `(u32)x`: the low 32 bits. -/
def toDWORD (x : Int) : Nat := (x % 4294967296).toNat

/-- Modelled from the spec: the winnt.h macro `Int32x32To64`, absent from the sources,
which multiplies its two operands as signed 32-bit integers into a 64-bit result:
`(LONGLONG)(LONG)(a) * (LONGLONG)(LONG)(b)`. -/
def Int32x32To64 (a b : Nat) : Int := toLONG a * toLONG b

/-- `fromFT`: `dt = low | ((LONGLONG)high << 32)`, then
`(u32)((dt - 116444736000000000) / 10000000)` with C's truncating division. -/
def fromFT (f : FILETIME) : Nat :=
  let dt : Int := toLONGLONG (((f.dwLowDateTime % 4294967296 : Nat) : Int)
                    + ((f.dwHighDateTime % 4294967296 : Nat) : Int) * 4294967296)
  toDWORD (Int.tdiv (toLONGLONG (dt - 116444736000000000)) 10000000)

/-- `toFT`: `dt = Int32x32To64(ut, 10000000) + 116444736000000000`, split into
`(DWORD)dt` and `(DWORD)(dt >> 32)`. -/
def toFT (ut : Nat) : FILETIME :=
  let dt : Int := toLONGLONG (Int32x32To64 ut 10000000 + 116444736000000000)
  { dwLowDateTime := toDWORD dt
    dwHighDateTime := toDWORD (dt / 4294967296) }

/-- The 64-bit tick count a `FILETIME` stands for. -/
def FILETIME.ticks (f : FILETIME) : Nat := f.dwHighDateTime * 4294967296 + f.dwLowDateTime

/-! ## Text conversion: the Windows calls behind `utf8` and `wstr`

`WideCharToMultiByte (CP_UTF8, 0, ...)` and `MultiByteToWideChar (CP_UTF8, 0, ...)`
are not part of the sources.  They are modelled as the Unicode transformation
formats with the documented treatment of ill-formed input when no flag is
given: the offending unit is replaced by U+FFFD and the conversion goes on.
Each model returns the converted text together with a flag that says whether
ill-formed input was met; the flag stands for
`GetLastError () == ERROR_NO_UNICODE_TRANSLATION` read right after the call.
-/

/-- UTF-8 bytes of a Unicode scalar value. -/
def utf8Encode (c : Nat) : List Nat :=
  if c < 0x80 then [c]
  else if c < 0x800 then [0xC0 + c / 64, 0x80 + c % 64]
  else if c < 0x10000 then [0xE0 + c / 4096, 0x80 + c / 64 % 64, 0x80 + c % 64]
  else [0xF0 + c / 262144 % 8, 0x80 + c / 4096 % 64, 0x80 + c / 64 % 64, 0x80 + c % 64]

/-- UTF-16 code units of a Unicode scalar value. -/
def utf16Encode (c : Nat) : List Nat :=
  if c < 0x10000 then [c]
  else [0xD800 + (c - 0x10000) / 1024 % 1024, 0xDC00 + (c - 0x10000) % 1024]

/-- A leading (high) surrogate code unit. -/
def isHighSurrogate (u : Nat) : Bool := decide (0xD800 ≤ u ∧ u < 0xDC00)

/-- A trailing (low) surrogate code unit. -/
def isLowSurrogate (u : Nat) : Bool := decide (0xDC00 ≤ u ∧ u < 0xE000)

/-- One code unit read while no high surrogate is pending: the pending surrogate
afterwards, the bytes written and whether the unit was ill-formed. -/
def wcFresh (u : Nat) : Option Nat × List Nat × Bool :=
  if isHighSurrogate u then (some u, [], false)
  else if isLowSurrogate u then (none, utf8Encode 0xFFFD, true)
  else (none, utf8Encode u, false)

/-- One code unit read by the UTF-16 to UTF-8 conversion. -/
def wcStep : Option Nat → Nat → Option Nat × List Nat × Bool
  | none, u => wcFresh u
  | some h, u =>
    if isLowSurrogate u then
      (none, utf8Encode (0x10000 + (h - 0xD800) * 1024 + (u - 0xDC00)), false)
    else ((wcFresh u).1, utf8Encode 0xFFFD ++ (wcFresh u).2.1, true)

/-- The UTF-16 to UTF-8 conversion from a given pending surrogate. -/
def wcRun : Option Nat → List Nat → List Nat × Bool
  | none, [] => ([], false)
  | some _, [] => (utf8Encode 0xFFFD, true)
  | s, u :: us =>
    ((wcStep s u).2.1 ++ (wcRun (wcStep s u).1 us).1,
     (wcStep s u).2.2 || (wcRun (wcStep s u).1 us).2)

/-- Modelled from the spec: the Windows call `WideCharToMultiByte (CP_UTF8, 0, ws, -1, ...)`,
absent from the sources: the UTF-8 text of a UTF-16 string, and whether it met
an unpaired surrogate. -/
def WideCharToMultiByte (ws : List Nat) : List Nat × Bool := wcRun none ws

/-- What the UTF-8 decoder is in the middle of: the number of continuation bytes
still expected (`0`: nothing pending), the bits gathered so far, and the least
scalar value the sequence may stand for (a shorter encoding exists below it). -/
structure Pending where
  need : Nat
  acc : Nat
  lo : Nat
  deriving DecidableEq, Repr

/-- The decoder with nothing pending. -/
def Pending.idle : Pending := ⟨0, 0, 0⟩

/-- One byte read while nothing is pending. -/
def mbFresh (b : Nat) : Pending × List Nat × Bool :=
  if b < 0x80 then (Pending.idle, [b], false)
  else if 0xC2 ≤ b ∧ b < 0xE0 then (⟨1, b - 0xC0, 0x80⟩, [], false)
  else if 0xE0 ≤ b ∧ b < 0xF0 then (⟨2, b - 0xE0, 0x800⟩, [], false)
  else if 0xF0 ≤ b ∧ b < 0xF5 then (⟨3, b - 0xF0, 0x10000⟩, [], false)
  else (Pending.idle, [0xFFFD], true)

/-- The code units of a completed sequence: U+FFFD when it is overlong, a
surrogate or beyond U+10FFFF. -/
def mbDone (c lo : Nat) : List Nat × Bool :=
  if c < lo ∨ (0xD800 ≤ c ∧ c < 0xE000) ∨ 0x110000 ≤ c then ([0xFFFD], true)
  else (utf16Encode c, false)

/-- One byte read by the UTF-8 to UTF-16 conversion. -/
def mbStep (p : Pending) (b : Nat) : Pending × List Nat × Bool :=
  if p.need = 0 then mbFresh b
  else if 0x80 ≤ b ∧ b < 0xC0 then
    if p.need = 1 then
      (Pending.idle, (mbDone (p.acc * 64 + (b - 0x80)) p.lo).1,
        (mbDone (p.acc * 64 + (b - 0x80)) p.lo).2)
    else (⟨p.need - 1, p.acc * 64 + (b - 0x80), p.lo⟩, [], false)
  else ((mbFresh b).1, 0xFFFD :: (mbFresh b).2.1, true)

/-- The UTF-8 to UTF-16 conversion from a given decoder state. -/
def mbRun : Pending → List Nat → List Nat × Bool
  | p, [] => if p.need = 0 then ([], false) else ([0xFFFD], true)
  | p, b :: bs =>
    ((mbStep p b).2.1 ++ (mbRun (mbStep p b).1 bs).1,
     (mbStep p b).2.2 || (mbRun (mbStep p b).1 bs).2)

/-- Modelled from the spec: the Windows call `MultiByteToWideChar (CP_UTF8, 0, s, -1, ...)`,
absent from the sources: the UTF-16 text of a UTF-8 string, and whether it met
an ill-formed sequence. -/
def MultiByteToWideChar (s : List Nat) : List Nat × Bool := mbRun Pending.idle s

/-! ## Name codec (`utf8`, `p9path`, `wstr`, `winpath`) -/

/-- `utf8`: the UTF-8 copy of a wide string, `none` for `NULL`.  `l` is the
converted length with the terminator; the copy is refused when
`(!transPath && e == ERROR_NO_UNICODE_TRANSLATION) || l == 0`.  A failing
`malloc` is not modelled. -/
def utf8 (transPath : Bool) (ws : List Nat) : Option (List Nat) :=
  let l := (WideCharToMultiByte ws).1.length + 1
  let e := (WideCharToMultiByte ws).2
  if (!transPath && e) || l == 0 then none
  else some (WideCharToMultiByte ws).1

/-- The body of the loop of `p9path` at one byte: a backslash becomes a slash,
and a blank becomes a question mark when `transPath` is set. -/
def p9char (transPath : Bool) (c : Nat) : Nat :=
  if c = 0x5C then 0x2F
  else if c = 0x20 then (if transPath then 0x3F else c)
  else c

/-- `p9path`: `utf8` followed by the replacement loop over every byte up to
the terminator. -/
def p9path (transPath : Bool) (ws : List Nat) : Option (List Nat) :=
  match utf8 transPath ws with
  | some fn => some (fn.map (p9char transPath))
  | none => none

/-- `wstr`: the wide copy of a UTF-8 string, `none` for `NULL`, refused under
the same condition as in `utf8`. -/
def wstr (transPath : Bool) (s : List Nat) : Option (List Nat) :=
  let l := (MultiByteToWideChar s).1.length + 1
  let e := (MultiByteToWideChar s).2
  if (!transPath && e) || l == 0 then none
  else some (MultiByteToWideChar s).1

/-- The body of the loop of `winpath` at one code unit: a slash becomes a
backslash, and a question mark becomes a blank when `transPath` is set. -/
def winchar (transPath : Bool) (c : Nat) : Nat :=
  if c = 0x2F then 0x5C
  else if c = 0x3F then (if transPath then 0x20 else c)
  else c

/-- `winpath`: `wstr` followed by the replacement loop over every code unit up
to the terminator. -/
def winpath (transPath : Bool) (s : List Nat) : Option (List Nat) :=
  match wstr transPath s with
  | some fn => some (fn.map (winchar transPath))
  | none => none

/-- A wide C string: every code unit is a non-zero 16-bit value. -/
def IsWideString (ws : List Nat) : Prop := ∀ u ∈ ws, 0 < u ∧ u < 65536

instance (ws : List Nat) : Decidable (IsWideString ws) := by
  unfold IsWideString; infer_instance

/-- The decoder states that `mbStep` can reach: a pending sequence never stands
for an ASCII character. -/
def Pending.Sound (p : Pending) : Prop := p.need = 0 ∨ 0x80 ≤ p.lo

/-! ## Metadata converter (`toFindData`) -/

/-- Modelled from the spec: the directory bit `Qtdir` of a qid type, from the absent header npfs.h. -/
def Qtdir : Nat := 0x80
/-- Modelled from the spec: `FILE_ATTRIBUTE_DIRECTORY` of the absent header winnt.h. -/
def FILE_ATTRIBUTE_DIRECTORY : Nat := 0x10
/-- Modelled from the spec: `FILE_ATTRIBUTE_NORMAL` of the absent header winnt.h. -/
def FILE_ATTRIBUTE_NORMAL : Nat := 0x80
/-- Modelled from the spec: `MAX_PATH`, the size of `cFileName`, from the absent header windef.h. -/
def MAX_PATH : Nat := 260

/-- The qid of a stat record: type tag and unique identity. -/
structure Npqid where
  type : Nat
  path : Nat
  deriving DecidableEq, Repr

/-- The fields of the stat record `Npwstat` that the converters read. -/
structure Npwstat where
  qid : Npqid
  atime : Nat
  mtime : Nat
  length : Nat
  name : List Nat
  deriving DecidableEq, Repr

/-- The Windows `WIN32_FIND_DATA`; the two name fields hold the text before the
terminator. -/
structure WIN32_FIND_DATA where
  dwFileAttributes : Nat
  ftCreationTime : FILETIME
  ftLastAccessTime : FILETIME
  ftLastWriteTime : FILETIME
  nFileSizeHigh : Nat
  nFileSizeLow : Nat
  dwReserved0 : Nat
  dwReserved1 : Nat
  cFileName : List Nat
  cAlternateFileName : List Nat
  deriving DecidableEq, Repr

deriving instance DecidableEq for Except

/-- The static `zt = { 0, 0 }`. -/
def zt : FILETIME := ⟨0, 0⟩

/-- The loop of `toFindData` that fills `cAlternateFileName`:
`for(j = 0, i = 0; j < 13 && fd->cFileName[i]; i++)`.  The first list is
`cFileName` from index `i` on, `alt` is what has been written so far and `j`
is its length; `name` is the byte string `st->name`, read at the same index
`i` (its terminator reads as `0`). -/
def altNameLoop (name : List Nat) : List Nat → Nat → List Nat → List Nat
  | [], _, alt => alt
  | w :: rest, i, alt =>
    if alt.length < 13 then
      let alt1 := if alt.length = 8 then alt ++ [0x2E] else alt
      let alt2 := if name.getD i 0 ≠ 0x2E then alt1 ++ [w] else alt1
      altNameLoop name rest (i + 1) alt2
    else alt

/-- `toFindData`: fails with `-(int)ERROR_FILE_NOT_FOUND` when `winpath` gives
`NULL`, else fills the record and returns `0` (here: the record).
`wcsncpy` keeps at most `MAX_PATH - 1` code units of the converted name. -/
def toFindData (transPath : Bool) (st : Npwstat) : Except Int WIN32_FIND_DATA :=
  match winpath transPath st.name with
  | none => Except.error (-(ERROR_FILE_NOT_FOUND : Int))
  | some fn =>
    let cFileName := fn.take (MAX_PATH - 1)
    Except.ok
      { dwFileAttributes :=
          if st.qid.type &&& Qtdir ≠ 0 then 0 ||| FILE_ATTRIBUTE_DIRECTORY
          else 0 ||| FILE_ATTRIBUTE_NORMAL
        ftCreationTime := zt
        ftLastAccessTime := toFT st.atime
        ftLastWriteTime := toFT st.mtime
        nFileSizeHigh := (st.length / 4294967296) % 4294967296
        nFileSizeLow := st.length % 4294967296
        dwReserved0 := 0
        dwReserved1 := 0
        cFileName := cFileName
        cAlternateFileName := altNameLoop st.name cFileName 0 [] }

/-! ## The 9P client library and the Dokan sink

Every call into the client library (and every entry handed to the
`FillFindData` callback) is appended to a trace.  What the library answers
is a parameter of the operation that makes the call. -/

/-- A call made by the translation layer.  A path argument is `none` when the
pointer passed is `NULL`. -/
inductive Call where
  | npc_open (fn : Option (List Nat)) (omode : Nat)
  | npc_create (fn : Option (List Nat)) (perm : Nat) (omode : Nat)
  | npc_close (fid : Nat)
  | npc_read (fid : Nat) (count : Nat) (offset : Int)
  | npc_write (fid : Nat) (buf : List Nat) (count : Nat) (offset : Int)
  | npc_dirread (fid : Nat)
  | npc_wstat (fn : Option (List Nat)) (name : List Nat)
  | FillFindData (fd : WIN32_FIND_DATA)
  deriving DecidableEq, Repr

/-- The state the operations act on: the error number `np_rerror` reports, and
the trace of calls made so far. -/
structure World where
  errnum : Int
  calls : List Call
  deriving DecidableEq, Repr

/-- The answer of the library to a call that returns a reference: the
reference (`0` for `NULL`) and the error number it leaves when it fails. -/
structure FidReply where
  fid : Nat
  errnum : Int
  deriving DecidableEq, Repr

/-- The answer of the library to a call that returns a count: the count
(negative on failure) and the error number it leaves when it fails. -/
structure IntReply where
  val : Int
  errnum : Int
  deriving DecidableEq, Repr

/-- Record a call. -/
def World.log (w : World) (c : Call) : World := { w with calls := w.calls ++ [c] }

/-- The call `npc_open (fs, fn, omode)` answered by `r`. -/
def npc_open (r : FidReply) (fn : Option (List Nat)) (omode : Nat) (w : World) : Nat × World :=
  (r.fid, { errnum := if r.fid = 0 then r.errnum else w.errnum
            calls := w.calls ++ [Call.npc_open fn omode] })

/-- The call `npc_create (fs, fn, perm, omode)` answered by `r`. -/
def npc_create (r : FidReply) (fn : Option (List Nat)) (perm omode : Nat) (w : World) :
    Nat × World :=
  (r.fid, { errnum := if r.fid = 0 then r.errnum else w.errnum
            calls := w.calls ++ [Call.npc_create fn perm omode] })

/-- The call `npc_close (fid)`. -/
def npc_close (fid : Nat) (w : World) : World := w.log (Call.npc_close fid)

/-- The call `npc_read (fid, Buffer, BufferLength, Offset)` answered by `r`. -/
def npc_read (r : IntReply) (fid count : Nat) (offset : Int) (w : World) : Int × World :=
  (r.val, { errnum := if r.val < 0 then r.errnum else w.errnum
            calls := w.calls ++ [Call.npc_read fid count offset] })

/-- The call `npc_write (fid, Buffer, NumberOfBytesToWrite, Offset)` answered by `r`. -/
def npc_write (r : IntReply) (fid : Nat) (buf : List Nat) (count : Nat) (offset : Int)
    (w : World) : Int × World :=
  (r.val, { errnum := if r.val < 0 then r.errnum else w.errnum
            calls := w.calls ++ [Call.npc_write fid buf count offset] })

/-- The call `npc_wstat (fs, fn, &st)` with an empty stat patch whose only set
field is the name, answered by `r`. -/
def npc_wstat (r : IntReply) (fn : Option (List Nat)) (name : List Nat) (w : World) :
    Int × World :=
  (r.val, { errnum := if r.val < 0 then r.errnum else w.errnum
            calls := w.calls ++ [Call.npc_wstat fn name] })

/-- `cvtError`: `np_rerror` gives the error number; `ENOENT` maps to
`-(int)ERROR_FILE_NOT_FOUND`, anything else to `-(int)ERROR_INVALID_PARAMETER`. -/
def cvtError (w : World) : Int :=
  if w.errnum = (ENOENT : Int) then -(ERROR_FILE_NOT_FOUND : Int)
  else -(ERROR_INVALID_PARAMETER : Int)

/-! ## Operation dispatch -/

/-- `_CreateFile`: returns the result code and the new value of
`DokanFileInfo->Context`.  `openR` and `createR` are the answers of the
library to `npc_open` and to `npc_create` (the latter is used only when the
call is made). -/
def _CreateFile (transPath : Bool) (openR createR : FidReply) (FileName : List Nat)
    (AccessMode CreationDisposition : Nat) (Context : Nat) (w : World) : Int × Nat × World :=
  let rd : Bool := decide (AccessMode &&& (GENERIC_READ ||| FILE_READ_DATA) ≠ 0)
  let wr : Bool := decide (AccessMode &&& (GENERIC_WRITE ||| FILE_WRITE_DATA) ≠ 0)
  let omode0 : Nat := if rd && wr then Ordwr else if wr then Owrite else Oread
  let omode : Nat := if CreationDisposition = TRUNCATE_EXISTING then omode0 ||| Otrunc else omode0
  match p9path transPath FileName with
  | none => (-(ERROR_NOT_ENOUGH_MEMORY : Int), Context, w)
  | some fn =>
    let r1 := npc_open openR (some fn) omode w
    let r2 :=
      if r1.1 = 0 ∧ (CreationDisposition = CREATE_ALWAYS ∨
                      CreationDisposition = CREATE_NEW ∨
                      CreationDisposition = OPEN_ALWAYS) then
        npc_create createR (some fn) 0o666 omode r1.2
      else r1
    if r2.1 = 0 then (cvtError r2.2, Context, r2.2)
    else (0, r2.1, r2.2)

/-- `maybeOpen`: returns `*opened`, `*fidp` and the world.  The reference given
is kept when it is not `NULL`; else the path is opened, whatever `p9path`
returned. -/
def maybeOpen (transPath : Bool) (openR : FidReply) (fname : List Nat) (omode : Nat)
    (fid : Nat) (w : World) : Bool × Nat × World :=
  if fid ≠ 0 then (false, fid, w)
  else
    let r := npc_open openR (p9path transPath fname) omode w
    (decide (r.1 ≠ 0), r.1, r.2)

/-- `maybeClose`: closes the reference when `maybeOpen` opened it. -/
def maybeClose (opened : Bool) (fid : Nat) (w : World) : World :=
  if opened then npc_close fid w else w

/-- `_ReadFile`: returns the result code, the value stored in `*ReadLength`
(`none` when nothing is stored) and the world. -/
def _ReadFile (transPath : Bool) (openR : FidReply) (readR : IntReply) (FileName : List Nat)
    (BufferLength : Nat) (Offset : Int) (Context : Nat) (w : World) :
    Int × Option Int × World :=
  let o := maybeOpen transPath openR FileName Oread Context w
  if o.2.1 = 0 then (cvtError o.2.2, none, o.2.2)
  else
    let r := npc_read readR o.2.1 BufferLength Offset o.2.2
    let e : Int := if r.1 < 0 then cvtError r.2 else 0
    let w2 := maybeClose o.1 o.2.1 r.2
    if e ≠ 0 then (e, none, w2) else (0, some r.1, w2)

/-- `_WriteFile`: returns the result code, the value stored in
`*NumberOfBytesWritten` (`none` when nothing is stored) and the world. -/
def _WriteFile (transPath : Bool) (openR : FidReply) (writeR : IntReply) (FileName : List Nat)
    (Buffer : List Nat) (NumberOfBytesToWrite : Nat) (Offset : Int) (Context : Nat)
    (w : World) : Int × Option Int × World :=
  let o := maybeOpen transPath openR FileName Owrite Context w
  if o.2.1 = 0 then (cvtError o.2.2, none, o.2.2)
  else
    let r := npc_write writeR o.2.1 Buffer NumberOfBytesToWrite Offset o.2.2
    let e : Int := if r.1 < 0 then cvtError r.2 else 0
    let w2 := maybeClose o.1 o.2.1 r.2
    if e ≠ 0 then (e, none, w2) else (0, some r.1, w2)

/-- One answer of the library to `npc_dirread`: a batch of stat records (the
count is its length, and `0` ends the directory) or a negative count with the
error number left behind. -/
inductive DirRead where
  | batch (sts : List Npwstat)
  | error (errnum : Int)
  deriving DecidableEq, Repr

/-- The inner loop of `_FindFiles` over one batch, `for(i = 0; i < cnt; i++)`,
threading the variable `e`: an entry with an empty name is passed over, an
entry whose conversion fails leaves its code in `e` and is elided, any other
is handed to `FillFindData`. -/
def findEntries (transPath : Bool) : List Npwstat → Int → World → Int × World
  | [], e, w => (e, w)
  | st :: rest, e, w =>
    if st.name.getD 0 0 = 0 then findEntries transPath rest e w
    else
      match toFindData transPath st with
      | Except.error e1 => findEntries transPath rest e1 w
      | Except.ok findData =>
        findEntries transPath rest 0 (w.log (Call.FillFindData findData))

/-- The outer loop of `_FindFiles`, `while(fid)`: the list holds the answers of
the library to the successive `npc_dirread` calls; when it runs out the next
answer is the zero-size batch that ends the directory. -/
def findBatches (transPath : Bool) (fid : Nat) : List DirRead → Int → World → Int × World
  | [], e, w => (e, w.log (Call.npc_dirread fid))
  | DirRead.error n :: _, _, w =>
    let w1 : World := { errnum := n, calls := w.calls ++ [Call.npc_dirread fid] }
    (cvtError w1, w1)
  | DirRead.batch sts :: rest, e, w =>
    let w1 := w.log (Call.npc_dirread fid)
    if sts.length = 0 then (e, w1)
    else
      let r := findEntries transPath sts e w1
      findBatches transPath fid rest r.1 r.2

/-- `_FindFiles`: returns the result code and the world.  `openR` answers
`npc_open`, `listing` the `npc_dirread` calls. -/
def _FindFiles (transPath : Bool) (openR : FidReply) (listing : List DirRead)
    (FileName : List Nat) (w : World) : Int × World :=
  match p9path transPath FileName with
  | none => (-(ERROR_NOT_ENOUGH_MEMORY : Int), w)
  | some fn =>
    let o := npc_open openR (some fn) Oread w
    let r : Int × World :=
      if o.1 = 0 then (cvtError o.2, o.2)
      else
        let l := findBatches transPath o.1 listing 0 o.2
        (l.1, npc_close o.1 l.2)
    if r.1 ≠ 0 then (r.1, r.2) else (0, r.2)

/-- Modelled from the spec: the C library call `strrchr (s, c)`, absent from the
sources: the offset of the last `c` in `s`, `none` for `NULL`. -/
def strrchr (s : List Nat) (c : Nat) : Option Nat :=
  match s with
  | [] => none
  | a :: rest =>
    match strrchr rest c with
    | some k => some (k + 1)
    | none => if a = c then some 0 else none

/-- Modelled from the spec: the C library call `strncmp (s, t, n)`, absent from
the sources: the difference at the first place where the strings differ among
their first `n` characters, the terminator counting as `0`. -/
def strncmp : List Nat → List Nat → Nat → Int
  | _, _, 0 => 0
  | [], [], _ + 1 => 0
  | [], b :: _, _ + 1 => -(b : Int)
  | a :: _, [], _ + 1 => (a : Int)
  | a :: s, b :: t, n + 1 => if a = b then strncmp s t n else (a : Int) - (b : Int)

/-- The offset of `newname` in `fn2` that `_MoveFile` computes: `dirlen + 1`
when `fn` has a slash, else `0`. -/
def newnameOffset (fn : List Nat) : Nat :=
  match strrchr fn 0x2F with
  | some p => p + 1
  | none => 0

/-- The `dirlen` that `_MoveFile` computes: the offset of the last slash of
`fn`, else `0`. -/
def dirlenOf (fn : List Nat) : Nat :=
  match strrchr fn 0x2F with
  | some p => p
  | none => 0

/-- `_MoveFile`: returns the result code and the world, or `none` when
`newname = fn2 + dirlen + 1` points past the terminator of `fn2`, where what
`strchr` reads is not defined.  `wstatR` answers `npc_wstat`. -/
def _MoveFile (transPath : Bool) (wstatR : IntReply) (FileName NewFileName : List Nat)
    (w : World) : Option (Int × World) :=
  match p9path transPath FileName, p9path transPath NewFileName with
  | some fn, some fn2 =>
    if strncmp fn fn2 (dirlenOf fn) ≠ 0 then some (-(ERROR_NOT_SAME_DEVICE : Int), w)
    else if fn2.length < newnameOffset fn then none
    else if 0x2F ∈ fn2.drop (newnameOffset fn) then some (-(ERROR_NOT_SAME_DEVICE : Int), w)
    else
      let r := npc_wstat wstatR (some fn) (fn2.drop (newnameOffset fn)) w
      if r.1 < 0 then some (cvtError r.2, r.2) else some (0, r.2)
  | _, _ => some (-(ERROR_NOT_ENOUGH_MEMORY : Int), w)

/-- The alternate name as the specification words it, written next to
`altNameLoop` for comparison: the characters of the primary name in order,
every literal dot left out, one dot put in after the 8th copied character when
more characters remain, up to the end of the primary name or until the
13-character window is full.  The list is what remains of the primary name
and `alt` is what has been written so far. -/
def altNameSpec : List Nat → List Nat → List Nat
  | [], alt => alt
  | c :: rest, alt =>
    if alt.length < 13 then
      let alt1 := if alt.length = 8 then alt ++ [0x2E] else alt
      let alt2 := if c ≠ 0x2E then alt1 ++ [c] else alt1
      altNameSpec rest alt2
    else alt

/-- The base open mode as the specification words it, written next to
`_CreateFile` for comparison: `Ordwr` when the access mask has a read bit
(`GENERIC_READ` or `FILE_READ_DATA`) and a write bit (`GENERIC_WRITE` or
`FILE_WRITE_DATA`), `Owrite` when it has a write bit and no read bit, `Oread`
in every other case. -/
def baseModeSpec (AccessMode : Nat) : Nat :=
  if (AccessMode &&& GENERIC_READ ≠ 0 ∨ AccessMode &&& FILE_READ_DATA ≠ 0)
      ∧ (AccessMode &&& GENERIC_WRITE ≠ 0 ∨ AccessMode &&& FILE_WRITE_DATA ≠ 0) then Ordwr
  else if (AccessMode &&& GENERIC_WRITE ≠ 0 ∨ AccessMode &&& FILE_WRITE_DATA ≠ 0)
      ∧ ¬ (AccessMode &&& GENERIC_READ ≠ 0 ∨ AccessMode &&& FILE_READ_DATA ≠ 0) then Owrite
  else Oread

/-! ## Name codec -/

theorem Pending.idle_sound : Pending.idle.Sound := Or.inl rfl

theorem mbFresh_sound (b : Nat) : (mbFresh b).1.Sound := by
  unfold mbFresh Pending.Sound
  split_ifs <;> simp [Pending.idle]

theorem mbStep_sound (p : Pending) (hp : p.Sound) (b : Nat) : (mbStep p b).1.Sound := by
  unfold mbStep
  split_ifs
  · exact mbFresh_sound b
  · exact Pending.idle_sound
  · rcases hp with h | h
    · contradiction
    · exact Or.inr h
  · exact mbFresh_sound b

theorem p9char_eq_self (tp : Bool) (c : Nat) (h1 : c ≠ 0x5C) (h2 : c ≠ 0x20) :
    p9char tp c = c := by
  simp [p9char, h1, h2]

theorem p9char_lt (tp : Bool) (c : Nat) (h : c < 0x80) : p9char tp c < 0x80 := by
  unfold p9char
  split_ifs <;> omega

theorem p9char_of_ge (tp : Bool) (c : Nat) (h : 0x80 ≤ c) : p9char tp c = c :=
  p9char_eq_self tp c (by omega) (by omega)

theorem map_p9char_utf16Encode (tp : Bool) (c : Nat) (h : 0x80 ≤ c) :
    (utf16Encode c).map (p9char tp) = utf16Encode c := by
  unfold utf16Encode
  split_ifs
  · simp [p9char_of_ge tp c h]
  · simp only [List.map_cons, List.map_nil]
    rw [p9char_of_ge, p9char_of_ge] <;> omega

theorem map_p9char_mbDone (tp : Bool) (c lo : Nat) (h : 0x80 ≤ lo) :
    (mbDone c lo).1.map (p9char tp) = (mbDone c lo).1 := by
  unfold mbDone
  split_ifs with hc
  · simp [p9char]
  · exact map_p9char_utf16Encode tp c (by omega)

theorem mbFresh_ascii (b : Nat) (h : b < 0x80) : mbFresh b = (Pending.idle, [b], false) := by
  simp [mbFresh, h]

theorem mbFresh_p9char (tp : Bool) (b : Nat) :
    mbFresh (p9char tp b)
      = ((mbFresh b).1, (mbFresh b).2.1.map (p9char tp), (mbFresh b).2.2) := by
  by_cases hb : b < 0x80
  · rw [mbFresh_ascii b hb, mbFresh_ascii _ (p9char_lt tp b hb)]
    rfl
  · rw [p9char_of_ge tp b (by omega)]
    unfold mbFresh
    split_ifs <;> simp [p9char]

theorem mbStep_p9char (tp : Bool) (p : Pending) (hp : p.Sound) (b : Nat) :
    mbStep p (p9char tp b)
      = ((mbStep p b).1, (mbStep p b).2.1.map (p9char tp), (mbStep p b).2.2) := by
  by_cases hn : p.need = 0
  · simp only [mbStep, hn, if_true]
    exact mbFresh_p9char tp b
  · have hlo : 0x80 ≤ p.lo := by
      rcases hp with h | h
      · exact absurd h hn
      · exact h
    by_cases hb : b < 0x80
    · have hb2 := p9char_lt tp b hb
      have e1 : ¬ (0x80 ≤ b ∧ b < 0xC0) := by omega
      have e2 : ¬ (0x80 ≤ p9char tp b ∧ p9char tp b < 0xC0) := by omega
      simp only [mbStep, hn, if_false, e1, e2, mbFresh_p9char]
      simp [p9char]
    · rw [p9char_of_ge tp b (by omega)]
      unfold mbStep
      simp only [hn, if_false]
      split_ifs
      · simp [map_p9char_mbDone tp _ _ hlo]
      · simp
      · have := mbFresh_p9char tp b
        rw [p9char_of_ge tp b (by omega)] at this
        have h2 : (mbFresh b).2.1.map (p9char tp) = (mbFresh b).2.1 := by
          have := congrArg (fun r => r.2.1) this
          simpa using this.symm
        simp [h2, p9char]

theorem mbRun_p9char (tp : Bool) (bs : List Nat) :
    ∀ p : Pending, p.Sound →
      mbRun p (bs.map (p9char tp)) = ((mbRun p bs).1.map (p9char tp), (mbRun p bs).2) := by
  induction bs with
  | nil =>
    intro p _
    simp only [List.map_nil, mbRun]
    split_ifs <;> simp [p9char]
  | cons b bs ih =>
    intro p hp
    simp only [List.map_cons, mbRun, mbStep_p9char tp p hp b, ih _ (mbStep_sound p hp b),
      List.map_append]

theorem MultiByteToWideChar_p9char (tp : Bool) (bs : List Nat) :
    MultiByteToWideChar (bs.map (p9char tp))
      = ((MultiByteToWideChar bs).1.map (p9char tp), (MultiByteToWideChar bs).2) :=
  mbRun_p9char tp bs Pending.idle Pending.idle_sound

theorem wstr_p9char (tp : Bool) (bs ws : List Nat) (h : wstr tp bs = some ws) :
    wstr tp (bs.map (p9char tp)) = some (ws.map (p9char tp)) := by
  simp only [wstr] at h ⊢
  simp only [MultiByteToWideChar_p9char, List.length_map]
  split_ifs at h with hc
  simp only [Option.some.injEq] at h
  rw [if_neg hc, h]

theorem winchar_p9char (tp : Bool) (u : Nat) (hq : u ≠ 0x3F) (hs : u ≠ 0x2F) :
    winchar tp (p9char tp u) = u := by
  unfold winchar p9char
  cases tp <;> split_ifs <;> simp_all

theorem map_winchar_p9char (tp : Bool) (P : List Nat) (hq : 0x3F ∉ P) (hs : 0x2F ∉ P) :
    (P.map (p9char tp)).map (winchar tp) = P := by
  rw [List.map_map]
  conv_rhs => rw [← List.map_id P]
  apply List.map_congr_left
  intro u hu
  exact winchar_p9char tp u (fun h => hq (h ▸ hu)) (fun h => hs (h ▸ hu))

/-- C1, as the code has it: for every local path `P` (a wide C string) that contains
neither a question mark nor a slash, and that the UTF-8 conversion carries without
loss (`wstr` of `utf8` of `P` is `P`), `winpath` of `p9path` of `P` is `P`, with
`transPath` on and off. -/
theorem winpath_p9path (transPath : Bool) (P : List Nat) (_hP : IsWideString P)
    (hq : 0x3F ∉ P) (hs : 0x2F ∉ P)
    (hloss : (utf8 transPath P).bind (wstr transPath) = some P) :
    (p9path transPath P).bind (winpath transPath) = some P := by
  unfold p9path winpath
  cases hu : utf8 transPath P with
  | none => simp [hu] at hloss
  | some fn =>
    rw [hu] at hloss
    simp only [Option.some_bind] at hloss ⊢
    rw [wstr_p9char transPath fn P hloss]
    simp only [map_winchar_p9char transPath P hq hs]

/-- Witness of C1 at the path `\a b\é` with `transPath` on. -/
theorem winpath_p9path_witness :
    (p9path true [0x5C, 0x61, 0x20, 0x62, 0x5C, 0xE9]).bind (winpath true)
      = some [0x5C, 0x61, 0x20, 0x62, 0x5C, 0xE9] :=
  winpath_p9path true [0x5C, 0x61, 0x20, 0x62, 0x5C, 0xE9] (by decide) (by decide) (by decide)
    (by decide)

/-- C1 as stated fails: the path `a/b` has no question mark and converts without
loss, yet `winpath` of `p9path` gives `a\b`, with `transPath` on and off. -/
theorem winpath_p9path_slash_counterexample :
    IsWideString [0x61, 0x2F, 0x62] ∧ 0x3F ∉ [0x61, 0x2F, 0x62]
      ∧ (utf8 true [0x61, 0x2F, 0x62]).bind (wstr true) = some [0x61, 0x2F, 0x62]
      ∧ (utf8 false [0x61, 0x2F, 0x62]).bind (wstr false) = some [0x61, 0x2F, 0x62]
      ∧ (p9path true [0x61, 0x2F, 0x62]).bind (winpath true) = some [0x61, 0x5C, 0x62]
      ∧ (p9path false [0x61, 0x2F, 0x62]).bind (winpath false) = some [0x61, 0x5C, 0x62]
      ∧ (p9path true [0x61, 0x2F, 0x62]).bind (winpath true) ≠ some [0x61, 0x2F, 0x62]
      ∧ (p9path false [0x61, 0x2F, 0x62]).bind (winpath false) ≠ some [0x61, 0x2F, 0x62] := by
  decide

/-! ## Rename -/

/-- C2: at the rename of `\a\b\c` to `\a\bxy` the text before the last separator
is `/a/b` for the old path and `/a` for the new one, yet `_MoveFile` makes the
`npc_wstat` call (renaming `/a/b/c` to `y`) and returns what that call
returns, here `0`, not `-ERROR_NOT_SAME_DEVICE`. -/
theorem MoveFile_into_parent_not_rejected :
    p9path true [0x5C, 0x61, 0x5C, 0x62, 0x5C, 0x63] = some [0x2F, 0x61, 0x2F, 0x62, 0x2F, 0x63]
      ∧ p9path true [0x5C, 0x61, 0x5C, 0x62, 0x78, 0x79]
          = some [0x2F, 0x61, 0x2F, 0x62, 0x78, 0x79]
      ∧ strrchr [0x2F, 0x61, 0x2F, 0x62, 0x2F, 0x63] 0x2F = some 4
      ∧ strrchr [0x2F, 0x61, 0x2F, 0x62, 0x78, 0x79] 0x2F = some 2
      ∧ [0x2F, 0x61, 0x2F, 0x62, 0x2F, 0x63].take 4 ≠ [0x2F, 0x61, 0x2F, 0x62, 0x78, 0x79].take 2
      ∧ _MoveFile true ⟨0, 0⟩ [0x5C, 0x61, 0x5C, 0x62, 0x5C, 0x63]
            [0x5C, 0x61, 0x5C, 0x62, 0x78, 0x79] ⟨0, []⟩
          = some (0, ⟨0, [Call.npc_wstat (some [0x2F, 0x61, 0x2F, 0x62, 0x2F, 0x63]) [0x79]]⟩) := by
  decide

/-! ## Directory enumeration -/

/-- C3: with `transPath` off, a directory whose only batch holds the entry `a`
followed by an entry whose name is the ill-formed byte `0xFF`, and then ends:
`FillFindData` receives the entry `a`, and `_FindFiles` returns
`-ERROR_FILE_NOT_FOUND`, the code of the failed conversion, instead of `0`. -/
theorem FindFiles_last_entry_fails :
    toFindData false ⟨⟨0, 0⟩, 0, 0, 0, [0xFF]⟩ = Except.error (-(ERROR_FILE_NOT_FOUND : Int))
      ∧ _FindFiles false ⟨9, 0⟩
            [DirRead.batch [⟨⟨0, 0⟩, 0, 0, 0, [0x61]⟩, ⟨⟨0, 0⟩, 0, 0, 0, [0xFF]⟩]] [0x5C] ⟨0, []⟩
          = (-(ERROR_FILE_NOT_FOUND : Int),
              ⟨0, [Call.npc_open (some [0x2F]) Oread, Call.npc_dirread 9,
                    Call.FillFindData
                      { dwFileAttributes := FILE_ATTRIBUTE_NORMAL
                        ftCreationTime := zt
                        ftLastAccessTime := toFT 0
                        ftLastWriteTime := toFT 0
                        nFileSizeHigh := 0
                        nFileSizeLow := 0
                        dwReserved0 := 0
                        dwReserved1 := 0
                        cFileName := [0x61]
                        cAlternateFileName := [0x61] },
                    Call.npc_dirread 9, Call.npc_close 9]⟩) := by
  decide

/-! ## Time converter -/

theorem toLONGLONG_of_range (a : Int) (h0 : -9223372036854775808 ≤ a)
    (h1 : a < 9223372036854775808) : toLONGLONG a = a := by
  unfold toLONGLONG
  split_ifs <;> omega

theorem toLONG_cases (S : Nat) (h : S < 4294967296) :
    (S < 2147483648 ∧ toLONG S = (S : Int))
      ∨ (2147483648 ≤ S ∧ toLONG S = (S : Int) - 4294967296) := by
  unfold toLONG
  split_ifs <;> omega

theorem toFT_ticks_int (S : Nat) (h : S < 4294967296) :
    ((toFT S).ticks : Int) = toLONG S * 10000000 + 116444736000000000 := by
  have hk : toLONG 10000000 = 10000000 := by decide
  have hS := toLONG_cases S h
  have hr : toLONGLONG (toLONG S * 10000000 + 116444736000000000)
      = toLONG S * 10000000 + 116444736000000000 := by
    apply toLONGLONG_of_range <;> omega
  simp only [toFT, FILETIME.ticks, Int32x32To64, hk, hr, toDWORD]
  have hd : 0 ≤ toLONG S * 10000000 + 116444736000000000
      ∧ toLONG S * 10000000 + 116444736000000000 < 9223372036854775808 := by omega
  generalize toLONG S * 10000000 + 116444736000000000 = d at hd ⊢
  push_cast
  omega

theorem fromFT_of_ticks (f : FILETIME) (k : Int) (hl : f.dwLowDateTime < 4294967296)
    (hh : f.dwHighDateTime < 4294967296)
    (hk0 : -2147483648 ≤ k) (hk1 : k < 2147483648)
    (ht : (f.ticks : Int) = k * 10000000 + 116444736000000000) :
    fromFT f = toDWORD k := by
  unfold FILETIME.ticks at ht
  push_cast at ht
  simp only [fromFT, Nat.mod_eq_of_lt hl, Nat.mod_eq_of_lt hh]
  have e1 : toLONGLONG ((f.dwLowDateTime : Int) + (f.dwHighDateTime : Int) * 4294967296)
      = k * 10000000 + 116444736000000000 := by
    rw [toLONGLONG_of_range] <;> omega
  rw [e1]
  have e2 : k * 10000000 + 116444736000000000 - 116444736000000000 = k * 10000000 := by ring
  rw [e2, toLONGLONG_of_range _ (by omega) (by omega), Int.mul_tdiv_cancel _ (by decide)]

/-- C4: for every unsigned 32-bit unix-seconds value `S`, `fromFT (toFT S) = S`. -/
theorem fromFT_toFT (S : Nat) (h : S < 4294967296) : fromFT (toFT S) = S := by
  have hS := toLONG_cases S h
  have hlo : (toFT S).dwLowDateTime < 4294967296 := by
    simp only [toFT, toDWORD]; omega
  have hhi : (toFT S).dwHighDateTime < 4294967296 := by
    simp only [toFT, toDWORD]; omega
  rw [fromFT_of_ticks (toFT S) (toLONG S) hlo hhi (by omega) (by omega) (toFT_ticks_int S h)]
  unfold toDWORD
  omega

/-- Witness of C4 at the largest 32-bit value, where `toFT` reads the seconds as negative. -/
theorem fromFT_toFT_witness : 4294967295 < 4294967296 ∧ fromFT (toFT 4294967295) = 4294967295 :=
  ⟨by decide, fromFT_toFT 4294967295 (by decide)⟩

/-! ## Time converter: the tick count -/

/-- C5: at `S = 2^31` the tick count of `toFT S` is `94969899520000000`, that
is `(S - 2^32) * 10000000 + 116444736000000000`, and not
`S * 10000000 + 116444736000000000 = 137919572480000000`. -/
theorem toFT_ticks_at_2147483648 :
    (toFT 2147483648).dwHighDateTime * 4294967296 + (toFT 2147483648).dwLowDateTime
        = 94969899520000000
      ∧ 2147483648 * 10000000 + 116444736000000000 = 137919572480000000
      ∧ (toFT 2147483648).dwHighDateTime * 4294967296 + (toFT 2147483648).dwLowDateTime
          ≠ 2147483648 * 10000000 + 116444736000000000 := by
  decide

/-! ## Create / open -/

theorem lor_eq_zero_iff (x y : Nat) : x ||| y = 0 ↔ x = 0 ∧ y = 0 := by
  constructor
  · intro h
    have hb : ∀ i, x.testBit i = false ∧ y.testBit i = false := by
      intro i
      have := congrArg (fun n => Nat.testBit n i) h
      simpa [Nat.testBit_or, Bool.or_eq_false_iff] using this
    exact ⟨Nat.eq_of_testBit_eq (fun i => by simp [(hb i).1]),
      Nat.eq_of_testBit_eq (fun i => by simp [(hb i).2])⟩
  · rintro ⟨rfl, rfl⟩
    rfl

theorem and_lor_ne_zero_iff (m a b : Nat) :
    m &&& (a ||| b) ≠ 0 ↔ (m &&& a ≠ 0 ∨ m &&& b ≠ 0) := by
  rw [Nat.and_or_distrib_left, Ne, lor_eq_zero_iff]
  tauto

/-- The run of `_CreateFile` on a path that encodes: the mode it computes, with
the base part in the words of the specification, and the reference it ends with. -/
theorem CreateFile_run (transPath : Bool) (openR createR : FidReply)
    (FileName : List Nat) (AccessMode CreationDisposition Context : Nat) (w : World)
    (fn : List Nat) (hfn : p9path transPath FileName = some fn) :
    ∃ omode r2,
      (omode = if CreationDisposition = TRUNCATE_EXISTING
                then baseModeSpec AccessMode ||| Otrunc else baseModeSpec AccessMode)
      ∧ (r2 = if openR.fid = 0 ∧ (CreationDisposition = CREATE_ALWAYS
                  ∨ CreationDisposition = CREATE_NEW ∨ CreationDisposition = OPEN_ALWAYS)
                then npc_create createR (some fn) 0o666 omode
                      (npc_open openR (some fn) omode w).2
                else npc_open openR (some fn) omode w)
      ∧ _CreateFile transPath openR createR FileName AccessMode CreationDisposition Context w
        = (if r2.1 = 0 then (cvtError r2.2, Context, r2.2) else (0, r2.1, r2.2)) := by
  refine ⟨_, _, rfl, rfl, ?_⟩
  have hb : (if (decide (AccessMode &&& (GENERIC_READ ||| FILE_READ_DATA) ≠ 0)
                && decide (AccessMode &&& (GENERIC_WRITE ||| FILE_WRITE_DATA) ≠ 0)) = true
              then Ordwr
              else if decide (AccessMode &&& (GENERIC_WRITE ||| FILE_WRITE_DATA) ≠ 0) = true
              then Owrite else Oread) = baseModeSpec AccessMode := by
    simp only [baseModeSpec, and_lor_ne_zero_iff, Bool.and_eq_true, decide_eq_true_eq]
    split_ifs <;> first | rfl | tauto
  simp only [_CreateFile, hfn, hb]
  rfl

/-- C6: whenever the path encodes, the mode `_CreateFile` passes to `npc_open` is
the base mode with or without the `Otrunc` flag, where the base mode is `Ordwr`
when the access mask has a read bit (`GENERIC_READ` or `FILE_READ_DATA`) and a
write bit (`GENERIC_WRITE` or `FILE_WRITE_DATA`), `Owrite` when it has a write
bit and no read bit, and `Oread` in every other case. -/
theorem CreateFile_base_open_mode (transPath : Bool) (openR createR : FidReply)
    (FileName : List Nat) (AccessMode CreationDisposition Context : Nat) (w : World)
    (fn : List Nat) (hfn : p9path transPath FileName = some fn) :
    ∃ omode rest,
      (_CreateFile transPath openR createR FileName AccessMode CreationDisposition
          Context w).2.2.calls = w.calls ++ Call.npc_open (some fn) omode :: rest
      ∧ (omode = baseModeSpec AccessMode ∨ omode = baseModeSpec AccessMode ||| Otrunc)
      ∧ baseModeSpec AccessMode =
          (if (AccessMode &&& GENERIC_READ ≠ 0 ∨ AccessMode &&& FILE_READ_DATA ≠ 0)
              ∧ (AccessMode &&& GENERIC_WRITE ≠ 0 ∨ AccessMode &&& FILE_WRITE_DATA ≠ 0)
            then Ordwr
            else if (AccessMode &&& GENERIC_WRITE ≠ 0 ∨ AccessMode &&& FILE_WRITE_DATA ≠ 0)
              ∧ ¬ (AccessMode &&& GENERIC_READ ≠ 0 ∨ AccessMode &&& FILE_READ_DATA ≠ 0)
            then Owrite
            else Oread) := by
  obtain ⟨omode, r2, hm, hr, h⟩ := CreateFile_run transPath openR createR FileName AccessMode
    CreationDisposition Context w fn hfn
  refine ⟨omode, if openR.fid = 0 ∧ (CreationDisposition = CREATE_ALWAYS
              ∨ CreationDisposition = CREATE_NEW ∨ CreationDisposition = OPEN_ALWAYS)
            then [Call.npc_create (some fn) 0o666 omode] else [], ?_, ?_, rfl⟩
  · have hc : r2.2.calls = w.calls ++ Call.npc_open (some fn) omode ::
        (if openR.fid = 0 ∧ (CreationDisposition = CREATE_ALWAYS
              ∨ CreationDisposition = CREATE_NEW ∨ CreationDisposition = OPEN_ALWAYS)
            then [Call.npc_create (some fn) 0o666 omode] else []) := by
      rw [hr]
      split_ifs <;> simp [npc_open, npc_create]
    have hw : (_CreateFile transPath openR createR FileName AccessMode CreationDisposition
        Context w).2.2 = r2.2 := by
      rw [h]
      split_ifs <;> rfl
    rw [hw]
    exact hc
  · rw [hm]
    split_ifs
    · exact Or.inr rfl
    · exact Or.inl rfl

/-- Witness of C6: the path `\a` opened with `GENERIC_READ | GENERIC_WRITE`. -/
theorem CreateFile_base_open_mode_witness :
    ∃ omode rest,
      (_CreateFile true ⟨5, 0⟩ ⟨0, 0⟩ [0x5C, 0x61] 0xC0000000 OPEN_EXISTING 0 ⟨0, []⟩).2.2.calls
          = [] ++ Call.npc_open (some [0x2F, 0x61]) omode :: rest
      ∧ (omode = Ordwr ∨ omode = Ordwr ||| Otrunc) := by
  obtain ⟨omode, rest, h1, h2, _⟩ :=
    CreateFile_base_open_mode true ⟨5, 0⟩ ⟨0, 0⟩ [0x5C, 0x61] 0xC0000000 OPEN_EXISTING 0 ⟨0, []⟩
      [0x2F, 0x61] (by decide)
  have hb : baseModeSpec 0xC0000000 = Ordwr := by decide
  rw [hb] at h2
  exact ⟨omode, rest, h1, h2⟩

/-- C7: with the disposition `CREATE_ALWAYS` (and write access) the mode
`_CreateFile` passes to `npc_open` is `Owrite`, without the `Otrunc` flag. -/
theorem CreateFile_create_always_no_trunc :
    _CreateFile true ⟨5, 0⟩ ⟨0, 0⟩ [0x5C, 0x61] GENERIC_WRITE CREATE_ALWAYS 0 ⟨0, []⟩
        = (0, 5, ⟨0, [Call.npc_open (some [0x2F, 0x61]) Owrite]⟩)
      ∧ Owrite &&& Otrunc = 0 := by
  decide

/-- C8: for every `_CreateFile` call whose path encodes and whose `npc_open`
fails: with the disposition `CREATE_ALWAYS`, `CREATE_NEW` or `OPEN_ALWAYS` the
calls made are that `npc_open` and then one `npc_create` with permissions
`0666` and the same mode, else the `npc_open` alone; when no reference is
obtained the result is the `cvtError` code of the failed call
(`-ERROR_FILE_NOT_FOUND` for `ENOENT`, `-ERROR_INVALID_PARAMETER` otherwise)
and `Context` is unchanged; when `npc_create` gives a reference it is stored
in `Context` and the result is `0`. -/
theorem CreateFile_open_fails (transPath : Bool) (openR createR : FidReply)
    (FileName : List Nat) (AccessMode CreationDisposition Context : Nat) (w : World)
    (fn : List Nat) (hfn : p9path transPath FileName = some fn) (hopen : openR.fid = 0) :
    ∃ omode,
      ((CreationDisposition = CREATE_ALWAYS ∨ CreationDisposition = CREATE_NEW
          ∨ CreationDisposition = OPEN_ALWAYS) →
        (_CreateFile transPath openR createR FileName AccessMode CreationDisposition
            Context w).2.2.calls
          = w.calls ++ [Call.npc_open (some fn) omode, Call.npc_create (some fn) 0o666 omode]
        ∧ (createR.fid = 0 →
            (_CreateFile transPath openR createR FileName AccessMode CreationDisposition
                Context w).1
              = (if createR.errnum = (ENOENT : Int) then -(ERROR_FILE_NOT_FOUND : Int)
                  else -(ERROR_INVALID_PARAMETER : Int))
            ∧ (_CreateFile transPath openR createR FileName AccessMode CreationDisposition
                Context w).2.1 = Context)
        ∧ (createR.fid ≠ 0 →
            (_CreateFile transPath openR createR FileName AccessMode CreationDisposition
                Context w).1 = 0
            ∧ (_CreateFile transPath openR createR FileName AccessMode CreationDisposition
                Context w).2.1 = createR.fid))
      ∧ (¬ (CreationDisposition = CREATE_ALWAYS ∨ CreationDisposition = CREATE_NEW
            ∨ CreationDisposition = OPEN_ALWAYS) →
        (_CreateFile transPath openR createR FileName AccessMode CreationDisposition
            Context w).2.2.calls = w.calls ++ [Call.npc_open (some fn) omode]
        ∧ (_CreateFile transPath openR createR FileName AccessMode CreationDisposition
            Context w).1
          = (if openR.errnum = (ENOENT : Int) then -(ERROR_FILE_NOT_FOUND : Int)
              else -(ERROR_INVALID_PARAMETER : Int))
        ∧ (_CreateFile transPath openR createR FileName AccessMode CreationDisposition
            Context w).2.1 = Context) := by
  obtain ⟨omode, r2, _, hr, h⟩ := CreateFile_run transPath openR createR FileName AccessMode
    CreationDisposition Context w fn hfn
  refine ⟨omode, ?_, ?_⟩
  · intro hd
    rw [if_pos ⟨hopen, hd⟩] at hr
    rw [h, hr]
    refine ⟨?_, ?_, ?_⟩
    · split_ifs <;> simp [npc_open, npc_create]
    · intro hc
      simp [npc_open, npc_create, hc, cvtError]
    · intro hc
      simp [npc_open, npc_create, hc]
  · intro hd
    rw [if_neg (fun hx => hd hx.2)] at hr
    rw [h, hr]
    simp [npc_open, hopen, cvtError]

/-- Witness of C8: `\a` opened with `CREATE_NEW`; `npc_open` fails with `ENOENT`
and `npc_create` gives the reference `7`. -/
theorem CreateFile_open_fails_witness :
    _CreateFile true ⟨0, 2⟩ ⟨7, 0⟩ [0x5C, 0x61] GENERIC_WRITE CREATE_NEW 0 ⟨0, []⟩
      = (0, 7, ⟨2, [Call.npc_open (some [0x2F, 0x61]) Owrite,
                    Call.npc_create (some [0x2F, 0x61]) 0o666 Owrite]⟩)
    ∧ ∃ omode,
        (_CreateFile true ⟨0, 2⟩ ⟨7, 0⟩ [0x5C, 0x61] GENERIC_WRITE CREATE_NEW 0 ⟨0, []⟩).2.2.calls
          = [] ++ [Call.npc_open (some [0x2F, 0x61]) omode,
                    Call.npc_create (some [0x2F, 0x61]) 0o666 omode] := by
  refine ⟨by decide, ?_⟩
  obtain ⟨omode, h1, _⟩ :=
    CreateFile_open_fails true ⟨0, 2⟩ ⟨7, 0⟩ [0x5C, 0x61] GENERIC_WRITE CREATE_NEW 0 ⟨0, []⟩
      [0x2F, 0x61] (by decide) (by decide)
  exact ⟨omode, (h1 (by decide)).1⟩

/-! ## Read / write -/

/-- C9: a `_ReadFile` or `_WriteFile` call made with an empty context whose
on-demand `npc_open` succeeds makes exactly the calls `npc_open`, `npc_read`
(or `npc_write`) and one `npc_close` of the temporary reference, whatever
length the library returns; a call made with a non-empty context makes the
`npc_read` (or `npc_write`) call on the context reference and nothing else:
no `npc_open` and no `npc_close`. -/
theorem ReadWrite_temporary_reference (transPath : Bool) (openR : FidReply) (ioR : IntReply)
    (FileName Buffer : List Nat) (Length : Nat) (Offset : Int) (Context : Nat) (w : World) :
    (Context = 0 → openR.fid ≠ 0 →
        (_ReadFile transPath openR ioR FileName Length Offset Context w).2.2.calls
          = w.calls ++ [Call.npc_open (p9path transPath FileName) Oread,
                        Call.npc_read openR.fid Length Offset, Call.npc_close openR.fid]
        ∧ (_WriteFile transPath openR ioR FileName Buffer Length Offset Context w).2.2.calls
          = w.calls ++ [Call.npc_open (p9path transPath FileName) Owrite,
                        Call.npc_write openR.fid Buffer Length Offset,
                        Call.npc_close openR.fid])
    ∧ (Context ≠ 0 →
        (_ReadFile transPath openR ioR FileName Length Offset Context w).2.2.calls
          = w.calls ++ [Call.npc_read Context Length Offset]
        ∧ (_WriteFile transPath openR ioR FileName Buffer Length Offset Context w).2.2.calls
          = w.calls ++ [Call.npc_write Context Buffer Length Offset]) := by
  refine ⟨?_, ?_⟩
  · intro hc ho
    subst hc
    constructor
    · simp only [_ReadFile, maybeOpen, maybeClose, npc_open, npc_read, npc_close, World.log]
      split_ifs <;> simp_all
    · simp only [_WriteFile, maybeOpen, maybeClose, npc_open, npc_write, npc_close, World.log]
      split_ifs <;> simp_all
  · intro hc
    constructor
    · simp only [_ReadFile, maybeOpen, maybeClose, npc_open, npc_read, npc_close, World.log]
      split_ifs <;> simp_all
    · simp only [_WriteFile, maybeOpen, maybeClose, npc_open, npc_write, npc_close, World.log]
      split_ifs <;> simp_all

/-- Witness of C9: an on-demand read of `\a` that fails in `npc_read`, and a read
through the context reference `4`. -/
theorem ReadWrite_temporary_reference_witness :
    (_ReadFile true ⟨9, 0⟩ ⟨-1, 5⟩ [0x5C, 0x61] 10 0 0 ⟨0, []⟩).2.2.calls
        = [] ++ [Call.npc_open (p9path true [0x5C, 0x61]) Oread, Call.npc_read 9 10 0,
                  Call.npc_close 9]
      ∧ (_ReadFile true ⟨9, 0⟩ ⟨-1, 5⟩ [0x5C, 0x61] 10 0 4 ⟨0, []⟩).2.2.calls
        = [] ++ [Call.npc_read 4 10 0] :=
  ⟨((ReadWrite_temporary_reference true ⟨9, 0⟩ ⟨-1, 5⟩ [0x5C, 0x61] [] 10 0 0 ⟨0, []⟩).1
      rfl (by decide)).1,
   ((ReadWrite_temporary_reference true ⟨9, 0⟩ ⟨-1, 5⟩ [0x5C, 0x61] [] 10 0 4 ⟨0, []⟩).2
      (by decide)).1⟩

/-! ## Short-name synthesis -/

/-- C10: for the entry name `é.x` (UTF-8 bytes `C3 A9 2E 78`) the primary name is
the three code units `E9 2E 78`, and the alternate name `toFindData` writes is
`é.`: the dot is copied and the `x` is left out, because the dot test reads
the byte string at the index of the wide string.  In the words of the
specification the alternate name would be `éx`. -/
theorem toFindData_alternate_name_non_ascii :
    (toFindData true ⟨⟨0, 0⟩, 0, 0, 0, [0xC3, 0xA9, 0x2E, 0x78]⟩).toOption.map
          (fun fd => (fd.cFileName, fd.cAlternateFileName))
        = some ([0xE9, 0x2E, 0x78], [0xE9, 0x2E])
      ∧ altNameSpec [0xE9, 0x2E, 0x78] [] = [0xE9, 0x78] := by
  decide

theorem mbRun_ascii (bs : List Nat) (h : ∀ b ∈ bs, b < 0x80) :
    mbRun Pending.idle bs = (bs, false) := by
  induction bs with
  | nil => rfl
  | cons b bs ih =>
    have hb : b < 0x80 := h b (List.mem_cons_self b bs)
    have hs : mbStep Pending.idle b = (Pending.idle, [b], false) := by
      simp [mbStep, Pending.idle, mbFresh_ascii b hb]
    simp only [mbRun, hs, ih (fun x hx => h x (List.mem_cons_of_mem b hx))]
    rfl

theorem winpath_ascii (tp : Bool) (s : List Nat) (h : ∀ b ∈ s, b < 0x80) :
    winpath tp s = some (s.map (winchar tp)) := by
  simp [winpath, wstr, MultiByteToWideChar, mbRun_ascii s h]

theorem winchar_eq_dot (tp : Bool) (c : Nat) : winchar tp c = 0x2E ↔ c = 0x2E := by
  unfold winchar
  cases tp <;> split_ifs <;> omega

theorem altNameLoop_eq_spec (name : List Nat) (rest : List Nat) :
    ∀ (i : Nat) (alt : List Nat),
      (∀ k, k < rest.length → (name.getD (i + k) 0 = 0x2E ↔ rest.getD k 0 = 0x2E)) →
      altNameLoop name rest i alt = altNameSpec rest alt := by
  induction rest with
  | nil => intro i alt _; rfl
  | cons c rest ih =>
    intro i alt h
    have h0 : name.getD i 0 = 0x2E ↔ c = 0x2E := by
      simpa using h 0 (by simp)
    have hr : ∀ k, k < rest.length →
        (name.getD (i + 1 + k) 0 = 0x2E ↔ rest.getD k 0 = 0x2E) := by
      intro k hk
      have := h (k + 1) (by simpa using hk)
      rw [show i + 1 + k = i + (k + 1) by omega]
      simpa using this
    simp only [altNameLoop, altNameSpec, ne_eq, h0]
    split_ifs <;> first | rfl | exact ih _ _ hr

/-- The part of C10 that the code keeps: for an entry name of ASCII characters
the alternate name is the one the specification words, computed from the
primary name. -/
theorem toFindData_alternate_name_ascii (transPath : Bool) (st : Npwstat)
    (h : ∀ b ∈ st.name, b < 0x80) :
    ∃ fd, toFindData transPath st = Except.ok fd
      ∧ fd.cAlternateFileName = altNameSpec fd.cFileName [] := by
  simp only [toFindData, winpath_ascii transPath st.name h]
  refine ⟨_, rfl, ?_⟩
  apply altNameLoop_eq_spec
  intro k hk
  simp only [List.length_take, List.length_map] at hk
  have hk1 : k < st.name.length := by omega
  have hk2 : k < MAX_PATH - 1 := by omega
  simp [List.getD_eq_getElem?_getD, List.getElem?_take, hk1, hk2, winchar_eq_dot]

/-! ## Short-name synthesis: the length of the alternate name -/

theorem altNameLoop_length_le (name : List Nat) (rest : List Nat) :
    ∀ (i : Nat) (alt : List Nat), alt.length ≤ 13 →
      (altNameLoop name rest i alt).length ≤ 13 := by
  induction rest with
  | nil => intro i alt h; exact h
  | cons c rest ih =>
    intro i alt h
    simp only [altNameLoop]
    split_ifs with h1 h2 h3 h3
    · exact ih _ _ (by simp only [List.length_append, List.length_singleton]; omega)
    · exact ih _ _ (by simp only [List.length_append, List.length_singleton]; omega)
    · exact ih _ _ (by simp only [List.length_append, List.length_singleton]; omega)
    · exact ih _ _ h
    · exact h

/-- C11, as the code has it: for every entry name whose conversion succeeds, the
alternate name `toFindData` writes has at most 13 code units before its
terminator (the final index `j` of the loop is at most 13). -/
theorem toFindData_alternate_name_length (transPath : Bool) (st : Npwstat)
    (fd : WIN32_FIND_DATA) (h : toFindData transPath st = Except.ok fd) :
    fd.cAlternateFileName.length ≤ 13 := by
  unfold toFindData at h
  split at h
  · exact absurd h (by simp)
  · simp only [Except.ok.injEq] at h
    rw [← h]
    exact altNameLoop_length_le _ _ 0 [] (by simp)

/-- Witness of C11 at the entry name `abc.txt`, whose alternate name is `abctxt`. -/
theorem toFindData_alternate_name_length_witness :
    toFindData true ⟨⟨0, 0⟩, 0, 0, 0, [0x61, 0x62, 0x63, 0x2E, 0x74, 0x78, 0x74]⟩
        = Except.ok ⟨FILE_ATTRIBUTE_NORMAL, zt, toFT 0, toFT 0, 0, 0, 0, 0,
            [0x61, 0x62, 0x63, 0x2E, 0x74, 0x78, 0x74], [0x61, 0x62, 0x63, 0x74, 0x78, 0x74]⟩
      ∧ (⟨FILE_ATTRIBUTE_NORMAL, zt, toFT 0, toFT 0, 0, 0, 0, 0,
            [0x61, 0x62, 0x63, 0x2E, 0x74, 0x78, 0x74],
            [0x61, 0x62, 0x63, 0x74, 0x78, 0x74]⟩ : WIN32_FIND_DATA).cAlternateFileName.length
          ≤ 13 :=
  ⟨by decide,
   toFindData_alternate_name_length true
    ⟨⟨0, 0⟩, 0, 0, 0, [0x61, 0x62, 0x63, 0x2E, 0x74, 0x78, 0x74]⟩ _ (by decide)⟩

/-- C11 as stated fails: for the entry name `abcdefghijkl` the alternate name
`toFindData` writes is `abcdefgh.ijkl`, 13 code units before the terminator. -/
theorem toFindData_alternate_name_13_counterexample :
    (toFindData true
        ⟨⟨0, 0⟩, 0, 0, 0,
          [0x61, 0x62, 0x63, 0x64, 0x65, 0x66, 0x67, 0x68, 0x69, 0x6A, 0x6B, 0x6C]⟩).toOption.map
          (fun fd => fd.cAlternateFileName)
        = some [0x61, 0x62, 0x63, 0x64, 0x65, 0x66, 0x67, 0x68, 0x2E, 0x69, 0x6A, 0x6B, 0x6C]
      ∧ [0x61, 0x62, 0x63, 0x64, 0x65, 0x66, 0x67, 0x68, 0x2E, 0x69, 0x6A, 0x6B, 0x6C].length = 13
      ∧ ¬ (13 ≤ 12) := by
  decide

/-! ## Rename: the offset of the new leaf -/

/-- C12: at the rename of `\a\b` to `\a` the encoded paths are `/a/b` and `/a`;
`/a/b` has a slash, `dirlen` is `2` and `strncmp` over the first `2` bytes is
`0`, yet the leaf offset `dirlen + 1 = 3` is beyond the length `2` of `fn2`:
`newname` points past the terminator of `fn2` when `strchr` reads it. -/
theorem MoveFile_newname_past_terminator :
    p9path true [0x5C, 0x61, 0x5C, 0x62] = some [0x2F, 0x61, 0x2F, 0x62]
      ∧ p9path true [0x5C, 0x61] = some [0x2F, 0x61]
      ∧ strrchr [0x2F, 0x61, 0x2F, 0x62] 0x2F = some 2
      ∧ dirlenOf [0x2F, 0x61, 0x2F, 0x62] = 2
      ∧ strncmp [0x2F, 0x61, 0x2F, 0x62] [0x2F, 0x61] 2 = 0
      ∧ newnameOffset [0x2F, 0x61, 0x2F, 0x62] = 3
      ∧ [0x2F, 0x61].length = 2
      ∧ ¬ (newnameOffset [0x2F, 0x61, 0x2F, 0x62] ≤ [0x2F, 0x61].length)
      ∧ _MoveFile true ⟨0, 0⟩ [0x5C, 0x61, 0x5C, 0x62] [0x5C, 0x61] ⟨0, []⟩ = none := by
  decide

end Ninefs
